import Mathlib

/-!
Verification of the measurement-engine interface of randen's nanobenchmark
(src/nanobenchmark.h).  The header declares the data model (Params, Result,
ScopedArray), the two entry points (Measure, MeasureClosure) and the closure
adapter (CallClosure); the measurement engine's body lives in an
implementation file that is not part of src/, so engine behaviour is
modelled from the spec where noted.

Real-valued quantities (the C++ float and double fields, tick statistics)
are embedded as exact unnormalized rationals `Q` (integer numerator,
natural-number denominator), compared by cross multiplication, so that every
definition evaluates inside the kernel.
-/

namespace Randen

/-- Exact unnormalized rational: `num / den`.  Every value built by the
definitions below has a positive denominator, which the comparison and
division operations assume. -/
structure Q where
  num : Int
  den : Nat
deriving DecidableEq

/-- Embeds an integer tick count. -/
def Q.ofInt (n : Int) : Q := ⟨n, 1⟩

/-- Value comparison by cross multiplication (valid for positive
denominators). -/
def Q.le (a b : Q) : Bool := decide (a.num * (b.den : Int) ≤ b.num * (a.den : Int))

/-- Strict value comparison by cross multiplication. -/
def Q.lt (a b : Q) : Bool := decide (a.num * (b.den : Int) < b.num * (a.den : Int))

/-- Value equality by cross multiplication. -/
def Q.beq (a b : Q) : Bool := decide (a.num * (b.den : Int) = b.num * (a.den : Int))

/-- Addition without normalization. -/
def Q.add (a b : Q) : Q := ⟨a.num * (b.den : Int) + b.num * (a.den : Int), a.den * b.den⟩

/-- Subtraction without normalization. -/
def Q.sub (a b : Q) : Q := ⟨a.num * (b.den : Int) - b.num * (a.den : Int), a.den * b.den⟩

/-- Absolute value (denominator assumed positive). -/
def Q.abs (a : Q) : Q := ⟨a.num.natAbs, a.den⟩

/-- Division by a natural number (used for means). -/
def Q.divNat (a : Q) (n : Nat) : Q := ⟨a.num, a.den * n⟩

/-- Division, keeping the denominator nonnegative by moving the divisor's
sign into the numerator.  Callers guard against a zero divisor. -/
def Q.div (a b : Q) : Q :=
  if 0 ≤ b.num then ⟨a.num * (b.den : Int), a.den * b.num.toNat⟩
  else ⟨-(a.num * (b.den : Int)), a.den * (-b.num).toNat⟩

/-- src line 58: the input influencing the function being measured
(a size_t). -/
abbrev FuncInput := Nat

/-- src line 61: the proof-of-work output (a uint64_t; the engine never
interprets it, so its wrap-around is irrelevant here). -/
abbrev FuncOutput := Nat

/-- src lines 69 to 106: the Params structure with its member initializers.
The two double fields are embedded as exact rationals: 4E-3 as 4/1000 and
0.002 as 2/1000. -/
structure Params where
  precision_divisor : Nat := 1024
  subset_ratio : Nat := 2
  seconds_per_eval : Q := ⟨4, 1000⟩
  min_samples_per_eval : Nat := 7
  min_mode_samples : Nat := 64
  target_rel_mad : Q := ⟨2, 1000⟩
  max_evals : Nat := 9
  verbose : Bool := true
deriving DecidableEq

/-- src line 149: an omitted configuration argument means Params(), the
value-initialized structure, whose members take their initializers. -/
def defaultParams : Params := {}

/-- src line 73: Params::kTimerSamples, a static constexpr compile-time
constant. -/
def kTimerSamples : Nat := 256

/-- Params::kTimerSamples is a static member: every Params value observes
the same compile-time count, independent of any runtime field. -/
def Params.timerSamples (_ : Params) : Nat := kTimerSamples

/-- src lines 108 to 116: one measurement record.  The float fields are
embedded as exact rationals. -/
structure Result where
  input : FuncInput
  ticks : Q
  variability : Q
deriving DecidableEq

/-! ### ScopedArray, static C++ semantics (src lines 118 to 129)

ScopedArray declares its copy constructor and copy assignment deleted and
its move constructor and move assignment defaulted; its non-static data
members are `Result* results` and `const size_t num_results`, both of
scalar (non-class) type.  The definitions below embed the C++ special
member function rules, restricted to classes whose members are all
scalars, and the ScopedArray declaration itself. -/

/-- A non-static data member of scalar (non-class) type: all the special
member function rules need is whether it is const-qualified. -/
structure ScalarMember where
  isConst : Bool
deriving DecidableEq

/-- How a special member function is declared in the class definition:
explicitly deleted or explicitly defaulted. -/
inductive SMFDecl
  | isDeleted
  | isDefaulted
deriving DecidableEq

/-- A C++ class declaration, reduced to what the special member function
rules consult: the scalar data members and the four copy and move special
member declarations. -/
structure CppClass where
  members : List ScalarMember
  copy_ctor : SMFDecl
  copy_assign : SMFDecl
  move_ctor : SMFDecl
  move_assign : SMFDecl

/-- A defaulted copy or move constructor of a class whose members are all
scalars is never implicitly deleted (scalars, const or not, can always be
copy-initialized), so construction is available exactly when the
declaration is not deleted. -/
def ctorUsable (d : SMFDecl) : Bool :=
  match d with
  | SMFDecl.isDeleted => false
  | SMFDecl.isDefaulted => true

/-- C++ [class.copy.assign]: a defaulted copy or move assignment operator
is defined as deleted if the class has a non-static data member of const
non-class type; assignment is available exactly when the declaration is
not deleted and not implicitly deleted. -/
def assignUsable (d : SMFDecl) (members : List ScalarMember) : Bool :=
  match d with
  | SMFDecl.isDeleted => false
  | SMFDecl.isDefaulted => !(members.any (fun m => m.isConst))

/-- Whether copy construction compiles for the class. -/
def CppClass.copyConstructible (c : CppClass) : Bool := ctorUsable c.copy_ctor

/-- Whether copy assignment compiles for the class. -/
def CppClass.copyAssignable (c : CppClass) : Bool := assignUsable c.copy_assign c.members

/-- Whether move construction compiles for the class. -/
def CppClass.moveConstructible (c : CppClass) : Bool := ctorUsable c.move_ctor

/-- Whether move assignment compiles for the class. -/
def CppClass.moveAssignable (c : CppClass) : Bool := assignUsable c.move_assign c.members

/-- The ScopedArray declaration (src lines 119 to 129): members
`Result* results` (non-const scalar) and `const size_t num_results`
(const scalar); copy operations deleted (lines 122 and 123), move
operations defaulted (lines 124 and 125). -/
def ScopedArrayClass : CppClass :=
  { members := [⟨false⟩, ⟨true⟩]
  , copy_ctor := SMFDecl.isDeleted
  , copy_assign := SMFDecl.isDeleted
  , move_ctor := SMFDecl.isDefaulted
  , move_assign := SMFDecl.isDefaulted }

/-! ### ScopedArray, dynamic semantics under an instrumented allocator

Buffers are identified by allocation order; the heap records every release
with multiplicity so a double release is observable. -/

/-- Instrumented allocator state: the next fresh buffer id and the list of
released ids (with multiplicity). -/
structure Heap where
  nextId : Nat
  freed : List Nat
deriving DecidableEq

/-- The empty instrumented heap. -/
def Heap.empty : Heap := ⟨0, []⟩

/-- How often a given buffer has been released. -/
def Heap.freeCount (h : Heap) (id : Nat) : Nat := h.freed.count id

/-- A ScopedArray object at runtime: the raw `results` pointer, modelled as
an optional buffer id (`none` is a null pointer), and `num_results`. -/
structure ScopedArrayObj where
  results : Option Nat
  num_results : Nat
deriving DecidableEq

/-- Modelled from the spec: the out-of-line constructor (declared src line
120, defined in the implementation file, which is not under src/) obtains
one fresh buffer for the results. -/
def scopedArrayCtor (n : Nat) (h : Heap) : ScopedArrayObj × Heap :=
  (⟨some h.nextId, n⟩, ⟨h.nextId + 1, h.freed⟩)

/-- Modelled from the spec: the out-of-line destructor (declared src line
121) releases the buffer the `results` pointer refers to, once
("destruction releases the buffer exactly once"); a null pointer releases
nothing. -/
def scopedArrayDtor (a : ScopedArrayObj) (h : Heap) : Heap :=
  match a.results with
  | none => h
  | some id => ⟨h.nextId, id :: h.freed⟩

/-- The defaulted move constructor (src line 124) performs a memberwise
move; both members are scalars, so it copies them and leaves the source
object unchanged, in particular it does not null the source's `results`
pointer.  Returns (new object, source object after the move). -/
def scopedArrayMoveCtor (src : ScopedArrayObj) : ScopedArrayObj × ScopedArrayObj :=
  (⟨src.results, src.num_results⟩, src)

/-! ### The closure adapter and entry points (src lines 147 to 170) -/

/-- The type of a capturing closure of FuncInput to FuncOutput, the shape
MeasureClosure accepts (src line 162). -/
abbrev Closure := FuncInput → FuncOutput

/-- Failure taxonomy of the engine (spec section 7); PrecisionNotReached is
deliberately absent because it is not an error. -/
inductive MeasureError
  | invalidArgument
  | allocationFailure
deriving DecidableEq

/-- The shape of the plain entry point Measure (src lines 147 to 149) as
MeasureClosure uses it: a function of the function-under-test, the opaque
context (here the closure itself, standing for its address after type
erasure), the input distribution and the configuration.  The result type is
abstract: the equivalence claim treats Measure as a black box. -/
def MeasureEntry (ρ : Type) : Type :=
  (Closure → FuncInput → FuncOutput) → Closure → List FuncInput → Params → ρ

/-- CallClosure (src lines 155 to 158): invokes operator() of the closure
stored at the context on the input. -/
def CallClosure (f : Closure) (input : FuncInput) : FuncOutput := f input

/-- MeasureClosure (src lines 162 to 170): forwards to Measure, passing the
CallClosure adapter as the function and the closure (its address in the
code) as the opaque context. -/
def MeasureClosure (ρ : Type) (Measure : MeasureEntry ρ) (closure : Closure)
    (inputs : List FuncInput) (p : Params) : ρ :=
  Measure (fun ctx input => CallClosure ctx input) closure inputs p

/-- The spec's words for the forwarding adapter: applied to (ctx, input) it
invokes the closure stored at ctx on input and returns its output. -/
def closureAdapterSpec : Closure → FuncInput → FuncOutput :=
  fun ctx input => ctx input

/-- The spec's words for the closure entry point: exactly the result of the
plain entry point on the type-erasing adapter and the closure's address. -/
def MeasureClosureSpec (ρ : Type) (Measure : MeasureEntry ρ) (closure : Closure)
    (inputs : List FuncInput) (p : Params) : ρ :=
  Measure closureAdapterSpec closure inputs p

/-- MeasureClosure with the configuration argument omitted: the declaration
(src line 166) defaults it to Params(). -/
def MeasureClosureNoConfig (ρ : Type) (Measure : MeasureEntry ρ) (closure : Closure)
    (inputs : List FuncInput) : ρ :=
  MeasureClosure ρ Measure closure inputs defaultParams

/-! ### The measurement engine, modelled from the spec

The engine body (nanobenchmark's implementation file) is not under src/;
the definitions below model it from the spec: argument validation, the
per-round sample accumulation, the half-sample-mode and relative-MAD
statistics, and the convergence controller.  The ticks observed for each
invocation come from the platform tick source, outside the core, so the
engine is parametrized by a sample stream giving, for each eval round and
each distinct input, the tick samples attributed to that input in that
round. -/

/-- Modelled from the spec: the tick samples each eval round attributes to
each distinct input; stands for the timing results of the missing
SampleCollector body. -/
def SampleStream : Type := Nat → FuncInput → List Q

/-- First-occurrence deduplication with an accumulator of already-seen
values. -/
def dedupAcc (seen : List FuncInput) : List FuncInput → List FuncInput
  | [] => []
  | x :: xs => if x ∈ seen then dedupAcc seen xs else x :: dedupAcc (x :: seen) xs

/-- Modelled from the spec: the distinct input values of the caller's
distribution, in first-occurrence order of the original (unshuffled) input
sequence. -/
def dedupFirst (inputs : List FuncInput) : List FuncInput := dedupAcc [] inputs

/-- Insertion of a sample into a sorted list of samples. -/
def insertSorted (x : Q) : List Q → List Q
  | [] => [x]
  | y :: ys => if Q.le x y then x :: y :: ys else y :: insertSorted x ys

/-- Modelled from the spec: sorting the accumulated samples (insertion
sort, chosen for kernel computability). -/
def sortSamples : List Q → List Q
  | [] => []
  | x :: xs => insertSorted x (sortSamples xs)

/-- Median of a sorted sample list: the middle element (the upper one for
an even count); zero for an empty list. -/
def medianOfSorted (l : List Q) : Q := l.getD (l.length / 2) (Q.ofInt 0)

/-- Sum of a sample list. -/
def sumQ (l : List Q) : Q := l.foldr Q.add (Q.ofInt 0)

/-- Mean of a sample list; zero for an empty list. -/
def meanQ (l : List Q) : Q :=
  match l.length with
  | 0 => Q.ofInt 0
  | Nat.succ n => Q.divNat (sumQ l) (Nat.succ n)

/-- The contiguous windows of length k of a list, by position. -/
def windowsOf (k : Nat) (l : List Q) : List (List Q) :=
  (List.range (l.length + 1 - k)).map (fun i => (l.drop i).take k)

/-- Range of a sorted window: last element minus first element. -/
def windowRange (w : List Q) : Q :=
  Q.sub (w.getLastD (Q.ofInt 0)) (w.headD (Q.ofInt 0))

/-- The first window of smallest range among the given windows. -/
def pickMinRange : List (List Q) → List Q
  | [] => []
  | w :: ws => ws.foldl (fun best u => if Q.lt (windowRange u) (windowRange best) then u else best) w

/-- Modelled from the spec: the small fixed size at which the half-sample
narrowing stops and the remaining window is averaged. -/
def kModeWindowStop : Nat := 3

/-- One fuel-bounded pass of the half-sample narrowing: while the working
set is larger than the stop size, replace it with whichever contiguous
half (rounding up, by sorted position) has the smallest range. -/
def narrowAux : Nat → List Q → List Q
  | 0, l => l
  | Nat.succ fuel, l =>
    if l.length ≤ kModeWindowStop then l
    else narrowAux fuel (pickMinRange (windowsOf ((l.length + 1) / 2) l))

/-- The half-sample narrowing of a sorted list (the length bounds the
number of halving steps). -/
def narrow (l : List Q) : List Q := narrowAux l.length l

/-- Modelled from the spec: the half-sample mode.  Sort the samples; with
fewer than min_mode_samples samples degrade to the median of the current
set; otherwise iteratively keep the contiguous half of smallest range
until the working set shrinks below a small fixed size, and return the
mean of the final narrow window. -/
def halfSampleMode (p : Params) (samples : List Q) : Q :=
  let sorted := sortSamples samples
  if sorted.length < p.min_mode_samples then medianOfSorted sorted
  else meanQ (narrow sorted)

/-- Modelled from the spec: median absolute deviation of the samples from
the given center. -/
def madAt (center : Q) (samples : List Q) : Q :=
  medianOfSorted (sortSamples (samples.map (fun s => Q.abs (Q.sub s center))))

/-- Modelled from the spec: the median absolute deviation relative to the
center.  The degenerate zero-center case is collapsed to zero here; the
flagging the spec describes for it is not modelled (no claim under
verification depends on it). -/
def relMadAt (center : Q) (samples : List Q) : Q :=
  if center.num = 0 then Q.ofInt 0 else Q.div (madAt center samples) center

/-- The relative MAD of one input's accumulated samples, measured about
the half-sample-mode center. -/
def inputRelMad (p : Params) (samples : List Q) : Q :=
  relMadAt (halfSampleMode p samples) samples

/-- Modelled from the spec: the samples accumulated for one input across
the first `rounds` eval rounds (evals are cumulative; each round adds
samples rather than discarding prior rounds). -/
def accum (stream : SampleStream) (rounds : Nat) (v : FuncInput) : List Q :=
  (List.range rounds).foldr (fun k acc => stream k v ++ acc) []

/-- Whether every distinct input's relative MAD is at or below
target_rel_mad. -/
def converged (p : Params) (ds : List FuncInput) (acc : FuncInput → List Q) : Bool :=
  ds.all (fun v => Q.le (inputRelMad p (acc v)) p.target_rel_mad)

/-- Modelled from the spec: the convergence controller.  `done` rounds have
run; while fuel remains, run one more round and stop as soon as every
input's relative MAD is at or below the target.  Returns the total number
of rounds run. -/
def controllerLoop (p : Params) (stream : SampleStream) (ds : List FuncInput) :
    Nat → Nat → Nat
  | done, 0 => done
  | done, Nat.succ fuel =>
    if converged p ds (accum stream (done + 1)) then done + 1
    else controllerLoop p stream ds (done + 1) fuel

/-- The number of eval rounds one measurement call runs: the controller
loop starting from zero rounds with a fuel of max_evals. -/
def roundsRun (p : Params) (stream : SampleStream) (ds : List FuncInput) : Nat :=
  controllerLoop p stream ds 0 p.max_evals

/-- Modelled from the spec: the measurement engine behind Measure.
Validates the arguments (empty distribution or subset_ratio below 2 fails
with InvalidArgument before any timing), then runs the controller loop and
returns one record per distinct input in first-occurrence order, with the
half-sample-mode center and the relative MAD of that input's accumulated
samples. -/
def MeasureModel (stream : SampleStream) (inputs : List FuncInput) (p : Params) :
    Except MeasureError (List Result) :=
  if inputs.length = 0 ∨ p.subset_ratio < 2 then
    Except.error MeasureError.invalidArgument
  else
    Except.ok ((dedupFirst inputs).map (fun v =>
      { input := v
      , ticks := halfSampleMode p
          (accum stream (roundsRun p stream (dedupFirst inputs)) v)
      , variability := relMadAt
          (halfSampleMode p (accum stream (roundsRun p stream (dedupFirst inputs)) v))
          (accum stream (roundsRun p stream (dedupFirst inputs)) v) }))

/-- Measure over the modelled engine with the configuration argument
omitted: the declaration (src line 149) defaults it to Params(). -/
def MeasureNoConfig (stream : SampleStream) (inputs : List FuncInput) :
    Except MeasureError (List Result) :=
  MeasureModel stream inputs defaultParams

/-- Modelled from the spec: timer calibration collects one self-timing
delta per inner iteration of a nested loop, kTimerSamples iterations
inside kTimerSamples iterations; the deltas themselves come from the
platform tick source. -/
def calibrationDeltas (tick : Nat → Nat → Q) : List Q :=
  (List.range kTimerSamples).foldr
    (fun i acc => (List.range kTimerSamples).map (tick i) ++ acc) []

deriving instance DecidableEq for Except

/-! ### Concrete fixtures for the witnesses -/

/-- A concrete sample stream: every round attributes the single tick
sample 1 to every input. -/
def streamOne : SampleStream := fun _ _ => [Q.ofInt 1]

/-- A concrete input distribution with a repeated value. -/
def inputsFixture : List FuncInput := [5, 5, 7]

/-- The records the modelled engine produces on the fixtures above. -/
def resultsFixture : List Result :=
  [⟨5, ⟨1, 1⟩, ⟨0, 1⟩⟩, ⟨7, ⟨1, 1⟩, ⟨0, 1⟩⟩]

/-- The first record of resultsFixture, used by one witness. -/
def resultFixtureHead : Result := ⟨5, ⟨1, 1⟩, ⟨0, 1⟩⟩

/-! ## Helper lemmas -/

/-- The controller loop runs at most `done + fuel` rounds in total. -/
theorem controllerLoop_le (p : Params) (stream : SampleStream) (ds : List FuncInput) :
    ∀ (fuel done : Nat), controllerLoop p stream ds done fuel ≤ done + fuel := by
  intro fuel
  induction fuel with
  | zero => intro done; simp [controllerLoop]
  | succ n ih =>
    intro done
    simp only [controllerLoop]
    split
    · omega
    · have h := ih (done + 1)
      omega

/-- Membership in the first-occurrence deduplication: exactly the values of
the list that are not among the already-seen ones. -/
theorem dedupAcc_mem (v : FuncInput) :
    ∀ (l : List FuncInput) (seen : List FuncInput),
      v ∈ dedupAcc seen l ↔ v ∈ l ∧ v ∉ seen := by
  intro l
  induction l with
  | nil => intro seen; simp [dedupAcc]
  | cons x xs ih =>
    intro seen
    by_cases hx : x ∈ seen
    · rw [show dedupAcc seen (x :: xs) = dedupAcc seen xs by simp [dedupAcc, hx]]
      rw [ih seen]
      by_cases hvx : v = x
      · subst hvx
        simp [hx]
      · simp [hvx]
    · rw [show dedupAcc seen (x :: xs) = x :: dedupAcc (x :: seen) xs by
        simp [dedupAcc, hx]]
      simp only [List.mem_cons, ih (x :: seen)]
      by_cases hvx : v = x
      · subst hvx
        simp [hx]
      · simp [hvx]

/-- The first-occurrence deduplication has no duplicate values. -/
theorem dedupAcc_nodup :
    ∀ (l : List FuncInput) (seen : List FuncInput), (dedupAcc seen l).Nodup := by
  intro l
  induction l with
  | nil => intro seen; simp [dedupAcc]
  | cons x xs ih =>
    intro seen
    by_cases hx : x ∈ seen
    · rw [show dedupAcc seen (x :: xs) = dedupAcc seen xs by simp [dedupAcc, hx]]
      exact ih seen
    · rw [show dedupAcc seen (x :: xs) = x :: dedupAcc (x :: seen) xs by
        simp [dedupAcc, hx]]
      refine List.nodup_cons.mpr ⟨fun hmem => ?_, ih (x :: seen)⟩
      exact ((dedupAcc_mem x xs (x :: seen)).mp hmem).2 (List.mem_cons_self x seen)

/-- A pairwise relation transfers along an implication that may use
membership of both elements. -/
theorem pairwiseOfMemImp {R S : FuncInput → FuncInput → Prop} :
    ∀ (l : List FuncInput),
      (∀ a b, a ∈ l → b ∈ l → R a b → S a b) → l.Pairwise R → l.Pairwise S := by
  intro l
  induction l with
  | nil => intro _ _; exact List.Pairwise.nil
  | cons x xs ih =>
    intro himp hp
    rcases List.pairwise_cons.mp hp with ⟨hhead, htail⟩
    refine List.pairwise_cons.mpr ⟨?_, ?_⟩
    · intro b hb
      exact himp x b (List.mem_cons_self x xs) (List.mem_cons_of_mem _ hb) (hhead b hb)
    · exact ih (fun a b ha hb => himp a b (List.mem_cons_of_mem _ ha)
        (List.mem_cons_of_mem _ hb)) htail

/-- The first-occurrence deduplication lists values in strictly increasing
order of their first occurrence in the original list. -/
theorem dedupAcc_pairwise :
    ∀ (l : List FuncInput) (seen : List FuncInput),
      (dedupAcc seen l).Pairwise (fun a b => l.indexOf a < l.indexOf b) := by
  intro l
  induction l with
  | nil => intro seen; simp [dedupAcc]
  | cons x xs ih =>
    intro seen
    by_cases hx : x ∈ seen
    · rw [show dedupAcc seen (x :: xs) = dedupAcc seen xs by simp [dedupAcc, hx]]
      refine pairwiseOfMemImp _ ?_ (ih seen)
      intro a b ha hb hR
      have haa := (dedupAcc_mem a xs seen).mp ha
      have hbb := (dedupAcc_mem b xs seen).mp hb
      have hax : x ≠ a := fun h => haa.2 (h ▸ hx)
      have hbx : x ≠ b := fun h => hbb.2 (h ▸ hx)
      rw [List.indexOf_cons_ne _ hax, List.indexOf_cons_ne _ hbx]
      exact Nat.succ_lt_succ hR
    · rw [show dedupAcc seen (x :: xs) = x :: dedupAcc (x :: seen) xs by
        simp [dedupAcc, hx]]
      refine List.pairwise_cons.mpr ⟨?_, ?_⟩
      · intro b hb
        have hbb := (dedupAcc_mem b xs (x :: seen)).mp hb
        have hbx : x ≠ b := fun h => hbb.2 (h ▸ List.mem_cons_self x seen)
        rw [List.indexOf_cons_self, List.indexOf_cons_ne _ hbx]
        exact Nat.succ_pos _
      · refine pairwiseOfMemImp _ ?_ (ih (x :: seen))
        intro a b ha hb hR
        have haa := (dedupAcc_mem a xs (x :: seen)).mp ha
        have hbb := (dedupAcc_mem b xs (x :: seen)).mp hb
        have hax : x ≠ a := fun h => haa.2 (h ▸ List.mem_cons_self x seen)
        have hbx : x ≠ b := fun h => hbb.2 (h ▸ List.mem_cons_self x seen)
        rw [List.indexOf_cons_ne _ hax, List.indexOf_cons_ne _ hbx]
        exact Nat.succ_lt_succ hR

/-- Length of a fold that appends one block per index. -/
theorem foldrAppendLength (f : Nat → List Q) :
    ∀ (l : List Nat) (init : List Q),
      (l.foldr (fun i acc => f i ++ acc) init).length
        = (l.map (fun i => (f i).length)).sum + init.length := by
  intro l
  induction l with
  | nil => intro init; simp
  | cons x xs ih =>
    intro init
    simp only [List.foldr_cons, List.map_cons, List.sum_cons, List.length_append, ih]
    omega

/-- Sum of a constant map. -/
theorem sumConstMap (c : Nat) :
    ∀ (l : List Nat), (l.map (fun _ => c)).sum = l.length * c := by
  intro l
  induction l with
  | nil => simp
  | cons x xs ih =>
    simp only [List.map_cons, List.sum_cons, List.length_cons, ih]
    ring

/-- The records a successful modelled measurement returns are exactly one
per distinct input, keyed by dedupFirst. -/
theorem measureModel_ok_inputs (stream : SampleStream) (inputs : List FuncInput)
    (p : Params) (rs : List Result)
    (hok : MeasureModel stream inputs p = Except.ok rs) :
    rs.map Result.input = dedupFirst inputs := by
  unfold MeasureModel at hok
  split at hok
  · exact Except.noConfusion hok
  · have h := Except.ok.inj hok
    rw [← h, List.map_map]
    have : (Result.input ∘ fun v =>
        ({ input := v
         , ticks := halfSampleMode p
             (accum stream (roundsRun p stream (dedupFirst inputs)) v)
         , variability := relMadAt
             (halfSampleMode p (accum stream (roundsRun p stream (dedupFirst inputs)) v))
             (accum stream (roundsRun p stream (dedupFirst inputs)) v) } : Result))
        = id := rfl
    rw [this, List.map_id]

/-! ## The claims -/

/-- C1: the claim says that after a ScopedArray is moved into a new owner
the original owner holds no live reference to the results buffer.  The code
fails this: the defaulted move constructor (src line 124) copies the raw
pointer memberwise and leaves it in the source, so after the move the
original still references the very buffer the new owner holds; destroying
only the new owner releases the buffer exactly once, but destroying the
original as well, as happens at scope exit, releases it a second time.
Evaluation of the model at the failing input ScopedArray a(1);
ScopedArray b(move(a)). -/
theorem C1_defaulted_move_leaves_live_pointer :
    (scopedArrayMoveCtor (scopedArrayCtor 1 Heap.empty).1).2.results = some 0 ∧
    (scopedArrayMoveCtor (scopedArrayCtor 1 Heap.empty).1).1.results = some 0 ∧
    Heap.freeCount
      (scopedArrayDtor (scopedArrayMoveCtor (scopedArrayCtor 1 Heap.empty).1).1
        (scopedArrayCtor 1 Heap.empty).2) 0 = 1 ∧
    Heap.freeCount
      (scopedArrayDtor (scopedArrayMoveCtor (scopedArrayCtor 1 Heap.empty).1).2
        (scopedArrayDtor (scopedArrayMoveCtor (scopedArrayCtor 1 Heap.empty).1).1
          (scopedArrayCtor 1 Heap.empty).2)) 0 = 2 := by decide

/-- C2: ScopedArray is move-only.  Copy construction and copy assignment
are statically rejected (both declared deleted, src lines 122 and 123)
while move construction is permitted (defaulted and not implicitly
deleted, src line 124). -/
theorem C2_scoped_array_move_only :
    CppClass.copyConstructible ScopedArrayClass = false ∧
    CppClass.copyAssignable ScopedArrayClass = false ∧
    CppClass.moveConstructible ScopedArrayClass = true := by decide

/-- C3: the closure entry point equals the plain entry point composed with
the type-erasing adapter: MeasureClosure(c, inputs, p) is exactly
Measure(f, c, inputs, p) where f, applied to (ctx, input), invokes the
closure stored at ctx on input and returns its output. -/
theorem C3_measure_closure_refines_measure (ρ : Type) (Measure : MeasureEntry ρ)
    (closure : Closure) (inputs : List FuncInput) (p : Params) :
    MeasureClosure ρ Measure closure inputs p
      = MeasureClosureSpec ρ Measure closure inputs p := rfl

/-- C4: a default-constructed Params has exactly the documented defaults
(4E-3 equals 1/250 and 0.002 equals 1/500 as exact rationals), and
Measure and MeasureClosure use this default when the configuration
argument is omitted. -/
theorem C4_default_params :
    defaultParams.precision_divisor = 1024 ∧
    defaultParams.subset_ratio = 2 ∧
    defaultParams.seconds_per_eval = ⟨4, 1000⟩ ∧
    Q.beq defaultParams.seconds_per_eval ⟨1, 250⟩ = true ∧
    defaultParams.min_samples_per_eval = 7 ∧
    defaultParams.min_mode_samples = 64 ∧
    defaultParams.target_rel_mad = ⟨2, 1000⟩ ∧
    Q.beq defaultParams.target_rel_mad ⟨1, 500⟩ = true ∧
    defaultParams.max_evals = 9 ∧
    defaultParams.verbose = true ∧
    (∀ (stream : SampleStream) (inputs : List FuncInput),
      MeasureNoConfig stream inputs = MeasureModel stream inputs defaultParams) ∧
    (∀ (ρ : Type) (M : MeasureEntry ρ) (c : Closure) (inputs : List FuncInput),
      MeasureClosureNoConfig ρ M c inputs = MeasureClosure ρ M c inputs defaultParams) :=
  ⟨rfl, rfl, rfl, by decide, rfl, rfl, rfl, by decide, rfl, rfl,
    fun _ _ => rfl, fun _ _ _ _ => rfl⟩

/-- C5: an empty input distribution or subset_ratio below 2 fails with
InvalidArgument; the failure is independent of the tick stream (detected
before any timing) and carries no partial results. -/
theorem C5_invalid_argument (stream : SampleStream) (inputs : List FuncInput)
    (p : Params) (h : inputs.length = 0 ∨ p.subset_ratio < 2) :
    MeasureModel stream inputs p = Except.error MeasureError.invalidArgument ∧
    ∀ stream2 : SampleStream,
      MeasureModel stream2 inputs p = MeasureModel stream inputs p := by
  constructor
  · unfold MeasureModel
    rw [if_pos h]
  · intro stream2
    unfold MeasureModel
    rw [if_pos h, if_pos h]

/-- C5 witness: the empty distribution under the default configuration. -/
theorem C5_invalid_argument_witness :
    (([] : List FuncInput).length = 0 ∨ defaultParams.subset_ratio < 2) ∧
    (MeasureModel streamOne [] defaultParams
        = Except.error MeasureError.invalidArgument ∧
      ∀ stream2 : SampleStream,
        MeasureModel stream2 [] defaultParams = MeasureModel streamOne [] defaultParams) :=
  ⟨Or.inl rfl, C5_invalid_argument streamOne [] defaultParams (Or.inl rfl)⟩

/-- C6: the convergence loop runs at most max_evals eval rounds, and for
valid arguments the call always succeeds with a result collection,
whether or not the precision target was reached. -/
theorem C6_bounded_rounds_and_success (p : Params) (stream : SampleStream)
    (inputs : List FuncInput) (h1 : inputs ≠ []) (h2 : 2 ≤ p.subset_ratio) :
    roundsRun p stream (dedupFirst inputs) ≤ p.max_evals ∧
    ∃ rs, MeasureModel stream inputs p = Except.ok rs := by
  constructor
  · have h := controllerLoop_le p stream (dedupFirst inputs) p.max_evals 0
    simpa [roundsRun] using h
  · have hcond : ¬(inputs.length = 0 ∨ p.subset_ratio < 2) := by
      intro hc
      rcases hc with hc | hc
      · exact h1 (List.length_eq_zero.mp hc)
      · omega
    refine ⟨(dedupFirst inputs).map (fun v =>
      { input := v
      , ticks := halfSampleMode p
          (accum stream (roundsRun p stream (dedupFirst inputs)) v)
      , variability := relMadAt
          (halfSampleMode p (accum stream (roundsRun p stream (dedupFirst inputs)) v))
          (accum stream (roundsRun p stream (dedupFirst inputs)) v) }), ?_⟩
    unfold MeasureModel
    rw [if_neg hcond]

/-- C6 witness: concrete valid arguments under the default configuration. -/
theorem C6_bounded_rounds_and_success_witness :
    (inputsFixture ≠ [] ∧ 2 ≤ defaultParams.subset_ratio) ∧
    (roundsRun defaultParams streamOne (dedupFirst inputsFixture)
        ≤ defaultParams.max_evals ∧
      ∃ rs, MeasureModel streamOne inputsFixture defaultParams = Except.ok rs) :=
  ⟨⟨by decide, by decide⟩,
    C6_bounded_rounds_and_success defaultParams streamOne inputsFixture
      (by decide) (by decide)⟩

/-- C7: a successful measurement returns exactly one record per distinct
input value, and the records appear in the first-occurrence order of those
values in the original (unshuffled) input sequence. -/
theorem C7_one_record_per_distinct_input (stream : SampleStream)
    (inputs : List FuncInput) (p : Params) (rs : List Result)
    (hok : MeasureModel stream inputs p = Except.ok rs) :
    rs.map Result.input = dedupFirst inputs ∧
    (rs.map Result.input).Nodup ∧
    (∀ v, v ∈ rs.map Result.input ↔ v ∈ inputs) ∧
    (rs.map Result.input).Pairwise
      (fun a b => inputs.indexOf a < inputs.indexOf b) := by
  have hmap := measureModel_ok_inputs stream inputs p rs hok
  refine ⟨hmap, ?_, ?_, ?_⟩
  · rw [hmap]
    exact dedupAcc_nodup inputs []
  · intro v
    rw [hmap]
    unfold dedupFirst
    rw [dedupAcc_mem v inputs []]
    simp
  · rw [hmap]
    exact dedupAcc_pairwise inputs []

/-- C7 witness: the concrete fixture distribution with a repeated value. -/
theorem C7_one_record_per_distinct_input_witness :
    (MeasureModel streamOne inputsFixture defaultParams = Except.ok resultsFixture) ∧
    (resultsFixture.map Result.input = dedupFirst inputsFixture ∧
      (resultsFixture.map Result.input).Nodup ∧
      (∀ v, v ∈ resultsFixture.map Result.input ↔ v ∈ inputsFixture) ∧
      (resultsFixture.map Result.input).Pairwise
        (fun a b => inputsFixture.indexOf a < inputsFixture.indexOf b)) :=
  ⟨by decide,
    C7_one_record_per_distinct_input streamOne inputsFixture defaultParams
      resultsFixture (by decide)⟩

/-- C8: in every record of a successful measurement, the ticks field is the
half-sample mode of that input's accumulated samples (sort; with fewer
than min_mode_samples samples degrade to the median; otherwise repeatedly
keep the contiguous half of smallest range until a small fixed size and
return the mean of the final narrow window). -/
theorem C8_ticks_is_half_sample_mode (stream : SampleStream)
    (inputs : List FuncInput) (p : Params) (rs : List Result) (r : Result)
    (hok : MeasureModel stream inputs p = Except.ok rs) (hr : r ∈ rs) :
    r.ticks = halfSampleMode p
      (accum stream (roundsRun p stream (dedupFirst inputs)) r.input) := by
  unfold MeasureModel at hok
  split at hok
  · exact Except.noConfusion hok
  · have h := Except.ok.inj hok
    rw [← h] at hr
    rcases List.mem_map.mp hr with ⟨v, _, hv⟩
    rw [← hv]

/-- C8 witness: the first record of the fixture measurement. -/
theorem C8_ticks_is_half_sample_mode_witness :
    (MeasureModel streamOne inputsFixture defaultParams = Except.ok resultsFixture ∧
      resultFixtureHead ∈ resultsFixture) ∧
    resultFixtureHead.ticks = halfSampleMode defaultParams
      (accum streamOne (roundsRun defaultParams streamOne (dedupFirst inputsFixture))
        resultFixtureHead.input) :=
  ⟨⟨by decide, by decide⟩,
    C8_ticks_is_half_sample_mode streamOne inputsFixture defaultParams
      resultsFixture resultFixtureHead (by decide) (by decide)⟩

/-- C9: timer calibration uses the fixed compile-time constant
kTimerSamples = 256 as the bound of a nested quadratic calibration loop;
the count is the same for every Params value and is not a runtime field. -/
theorem C9_timer_samples_constant :
    kTimerSamples = 256 ∧
    (∀ p : Params, Params.timerSamples p = 256) ∧
    (∀ p q : Params, Params.timerSamples p = Params.timerSamples q) ∧
    (∀ tick : Nat → Nat → Q,
      (calibrationDeltas tick).length = kTimerSamples * kTimerSamples) := by
  refine ⟨rfl, fun _ => rfl, fun _ _ => rfl, fun tick => ?_⟩
  unfold calibrationDeltas
  rw [foldrAppendLength (fun i => (List.range kTimerSamples).map (tick i))
    (List.range kTimerSamples) []]
  simp [sumConstMap]

/-- C10: ScopedArray declares its move assignment defaulted, but the
declaration is implicitly deleted because the member num_results is of
const non-class type; the class has a const member, move assignment does
not compile, and ownership transfer is possible only through move
construction (copy operations being deleted as well). -/
theorem C10_move_assignment_implicitly_deleted :
    ScopedArrayClass.move_assign = SMFDecl.isDefaulted ∧
    ScopedArrayClass.members.any (fun m => m.isConst) = true ∧
    CppClass.moveAssignable ScopedArrayClass = false ∧
    CppClass.moveConstructible ScopedArrayClass = true ∧
    CppClass.copyConstructible ScopedArrayClass = false ∧
    CppClass.copyAssignable ScopedArrayClass = false := by decide

end Randen

